import Mathlib

/-!
Shallow embedding of the quantitative analytics engine of the
dydx-trading-dashboard repository, together with theorems settling the
frozen claims about its specification.

Numbers are modelled as exact rationals (ℚ); JS arrays as `List ℚ`.
`Math.sqrt` is modelled by `ratSqrt`, a rational stand-in that is exact on
perfect rational squares, zero on non-positive input and strictly positive
on positive input — the only properties of the square root that the claims
below depend on (every claim either stays in the zero branch of a
square-root-guarded formula or never reaches the square root at all).
The JS idiom `x || 0` on an array read is modelled by `jsGet`, which yields
0 for out-of-range indices (and maps an element 0 to 0, as in JS).
-/

namespace Dydx

/-- Model of `Math.abs`. -/
def jsAbs (q : ℚ) : ℚ :=
  if q < 0 then -q else q

/-- Rational stand-in for `Math.sqrt`: exact on perfect rational squares,
`0` on non-positive input, strictly positive on positive input. -/
def ratSqrt (q : ℚ) : ℚ :=
  (Nat.sqrt q.num.toNat : ℚ) / (Nat.sqrt q.den : ℚ)

/-- Model of the JS array read `arr[i] || 0`: out-of-range reads
(`undefined`) coerce to 0, and an element 0 also reads as 0. -/
def jsGet (l : List ℚ) (i : ℤ) : ℚ :=
  if 0 ≤ i then l.getD i.toNat 0 else 0

/-- JS `Array.prototype.sort((a,b) => a-b)`: ascending numeric sort. -/
def sortAsc (l : List ℚ) : List ℚ :=
  l.insertionSort (· ≤ ·)

/-! ## Statistical primitives — src/js/calculations/advanced-metrics.js -/

/-- `mean(values)`: 0 on empty input, else sum / length. -/
def mean (values : List ℚ) : ℚ :=
  if values.length = 0 then 0 else values.sum / values.length

/-- `standardDeviation(values)`: population standard deviation
(square root of the mean of squared deviations), 0 on empty input. -/
def standardDeviation (values : List ℚ) : ℚ :=
  if values.length = 0 then 0
  else ratSqrt (mean (values.map (fun v => (v - mean values) ^ 2)))

/-- `downsideDeviation(returns, targetReturn)`: square root of the mean of
squared negative parts of `r - targetReturn`, 0 on empty input. -/
def downsideDeviation (returns : List ℚ) (targetReturn : ℚ) : ℚ :=
  if returns.length = 0 then 0
  else ratSqrt (mean ((returns.map (fun r => min 0 (r - targetReturn))).map
    (fun r => r * r)))

/-! ## VaR / CVaR — src/js/calculations/risk-metrics.js -/

/-- `getZScore(confidence)`: fixed lookup for 0.90 / 0.95 / 0.99 with
default 1.645. -/
def getZScore (confidence : ℚ) : ℚ :=
  if confidence = 9/10 then 1282/1000
  else if confidence = 95/100 then 1645/1000
  else if confidence = 99/100 then 2326/1000
  else 1645/1000

/-- `historicalVaR(returns, confidence)`: sort ascending, pick rank
`floor((1-confidence)*n)` (out-of-range reads coerce to 0 via `|| 0`),
report the absolute value. -/
def historicalVaR (returns : List ℚ) (confidence : ℚ) : ℚ :=
  jsAbs (jsGet (sortAsc returns) ⌊(1 - confidence) * (returns.length : ℚ)⌋)

/-- `parametricVaR(returns, confidence)`: normal approximation
`|mean - zScore*stddev|` with population variance. -/
def parametricVaR (returns : List ℚ) (confidence : ℚ) : ℚ :=
  let m := returns.sum / (returns.length : ℚ)
  let variance := (returns.map (fun r => (r - m) ^ 2)).sum / (returns.length : ℚ)
  jsAbs (m - getZScore confidence * ratSqrt variance)

/-- VaR estimation method selector (the Monte Carlo method draws random
samples and is not modelled; no claim exercises it). -/
inductive VaRMethod
  | historical
  | parametric
deriving DecidableEq

/-- `calculateVaR(returns, confidence, method)`: 0 on empty input,
else dispatch on the method. -/
def calculateVaR (returns : List ℚ) (confidence : ℚ) (method : VaRMethod) : ℚ :=
  if returns.length = 0 then 0
  else match method with
    | .historical => historicalVaR returns confidence
    | .parametric => parametricVaR returns confidence

/-- `calculateCVaR(returns, confidence)`: average of the sorted returns at
ranks `0..varIndex` (inclusive), reported as an absolute value. When
`varIndex < 0` the loop body never runs and the result is 0; when
`varIndex ≥ n` the JS loop reads past the array and the sum becomes NaN —
modelled as `none`. -/
def calculateCVaR (returns : List ℚ) (confidence : ℚ) : Option ℚ :=
  if returns.length = 0 then some 0
  else
    let sorted := sortAsc returns
    let varIndex : ℤ := ⌊(1 - confidence) * (returns.length : ℚ)⌋
    if varIndex < 0 then some 0
    else if (returns.length : ℤ) ≤ varIndex then none
    else some (jsAbs ((sorted.take (varIndex.toNat + 1)).sum / (varIndex.toNat + 1 : ℚ)))

/-! ## Risk-adjusted ratios — src/js/calculations/advanced-metrics.js -/

/-- `calculateSharpeRatio(returns, riskFreeRate, annualizationFactor)`. -/
def calculateSharpeRatio (returns : List ℚ) (riskFreeRate annualizationFactor : ℚ) : ℚ :=
  if returns.length = 0 then 0
  else
    let avgReturn := mean returns
    let stdDev := standardDeviation returns
    if stdDev = 0 then 0
    else (avgReturn - riskFreeRate) / stdDev * ratSqrt annualizationFactor

/-- `calculateSortinoRatio(returns, targetReturn, annualizationFactor)`:
when the downside deviation is 0, returns 999 if the mean return exceeds
the target and 0 otherwise. -/
def calculateSortinoRatio (returns : List ℚ) (targetReturn annualizationFactor : ℚ) : ℚ :=
  if returns.length = 0 then 0
  else
    let avgReturn := mean returns
    let downDev := downsideDeviation returns targetReturn
    if downDev = 0 then (if targetReturn < avgReturn then 999 else 0)
    else (avgReturn - targetReturn) / downDev * ratSqrt annualizationFactor

/-- `calculateCalmarRatio(returns, maxDrawdown, periodsPerYear)`. The first
guard already returns 0 when `maxDrawdown === 0`, so the later
`maxDrawdown === 0 → 999/0` branch of the source is unreachable; it is
kept here as in the source. -/
def calculateCalmarRatio (returns : List ℚ) (maxDrawdown periodsPerYear : ℚ) : ℚ :=
  if returns.length = 0 ∨ maxDrawdown = 0 then 0
  else
    let annualReturn := mean returns * periodsPerYear
    if maxDrawdown = 0 then (if 0 < annualReturn then 999 else 0)
    else jsAbs (annualReturn / maxDrawdown)

/-- `calculateInformationRatio(portfolioReturns, benchmarkReturns)`;
`benchmarkReturns[i] || 0` is modelled by `jsGet`. -/
def calculateInformationRatio (portfolioReturns benchmarkReturns : List ℚ) : ℚ :=
  if portfolioReturns.length = 0 then 0
  else
    let excessReturns := portfolioReturns.enum.map
      (fun p => p.2 - jsGet benchmarkReturns p.1)
    let avgExcessReturn := mean excessReturns
    let trackingError := standardDeviation excessReturns
    if trackingError = 0 then 0 else avgExcessReturn / trackingError

/-- Gain-side aggregate of the Omega ratio: sum of `ret - threshold` over
returns strictly above the threshold. -/
def omegaGains (returns : List ℚ) (threshold : ℚ) : ℚ :=
  (returns.map (fun ret => if threshold < ret then ret - threshold else 0)).sum

/-- Loss-side aggregate of the Omega ratio: sum of `threshold - ret` over
returns at or below the threshold. -/
def omegaLosses (returns : List ℚ) (threshold : ℚ) : ℚ :=
  (returns.map (fun ret => if threshold < ret then 0 else threshold - ret)).sum

/-- `calculateOmegaRatio(returns, threshold)`: the forEach loop accumulates
exactly `omegaGains` and `omegaLosses`. -/
def calculateOmegaRatio (returns : List ℚ) (threshold : ℚ) : ℚ :=
  if returns.length = 0 then 0
  else if omegaLosses returns threshold = 0 then
    (if 0 < omegaGains returns threshold then 999 else 0)
  else omegaGains returns threshold / omegaLosses returns threshold

/-- `calculateSterlingRatio(returns, avgDrawdown, riskFreeRate,
periodsPerYear)`. As with Calmar, the first guard already returns 0 when
`avgDrawdown === 0`, so the later 999/0 branch is unreachable; kept as in
the source. -/
def calculateSterlingRatio (returns : List ℚ) (avgDrawdown riskFreeRate periodsPerYear : ℚ) : ℚ :=
  if returns.length = 0 ∨ avgDrawdown = 0 then 0
  else
    let excessReturn := mean returns * periodsPerYear - riskFreeRate
    if avgDrawdown = 0 then (if 0 < excessReturn then 999 else 0)
    else jsAbs (excessReturn / avgDrawdown)

/-- `calculateBurkeRatio(returns, drawdowns, riskFreeRate)`. -/
def calculateBurkeRatio (returns drawdowns : List ℚ) (riskFreeRate : ℚ) : ℚ :=
  if returns.length = 0 then 0
  else
    let excessReturn := mean returns - riskFreeRate
    let denominator := ratSqrt ((drawdowns.map (fun dd => dd * dd)).sum)
    if denominator = 0 then (if 0 < excessReturn then 999 else 0)
    else excessReturn / denominator

/-- `calculateBeta(returns, marketReturns)`: covariance over market
variance on the `min(length)` aligned prefix. -/
def calculateBeta (returns marketReturns : List ℚ) : ℚ :=
  if returns.length = 0 then 0
  else
    let avgReturn := mean returns
    let avgMarketReturn := mean marketReturns
    let n := min returns.length marketReturns.length
    let covariance := (((returns.take n).zip (marketReturns.take n)).map
      (fun p => (p.1 - avgReturn) * (p.2 - avgMarketReturn))).sum
    let marketVariance := ((marketReturns.take n).map
      (fun m => (m - avgMarketReturn) ^ 2)).sum
    if marketVariance = 0 then 0 else covariance / marketVariance

/-- `calculateTreynorRatio(returns, marketReturns, riskFreeRate)`. -/
def calculateTreynorRatio (returns marketReturns : List ℚ) (riskFreeRate : ℚ) : ℚ :=
  if returns.length = 0 then 0
  else
    let beta := calculateBeta returns marketReturns
    if beta = 0 then 0 else (mean returns - riskFreeRate) / beta

/-- `calculateAlpha(returns, marketReturns, riskFreeRate)` (Jensen's
alpha). Note: the source has no empty-input guard. -/
def calculateAlpha (returns marketReturns : List ℚ) (riskFreeRate : ℚ) : ℚ :=
  mean returns -
    (riskFreeRate + calculateBeta returns marketReturns * (mean marketReturns - riskFreeRate))

/-- `calculateCorrelation(x, y)` over the `min(length)` aligned prefix. -/
def calculateCorrelation (x y : List ℚ) : ℚ :=
  if x.length = 0 ∨ y.length = 0 then 0
  else
    let n := min x.length y.length
    let avgX := mean (x.take n)
    let avgY := mean (y.take n)
    let numerator := (((x.take n).zip (y.take n)).map
      (fun p => (p.1 - avgX) * (p.2 - avgY))).sum
    let denomX := ((x.take n).map (fun a => (a - avgX) ^ 2)).sum
    let denomY := ((y.take n).map (fun b => (b - avgY) ^ 2)).sum
    let denominator := ratSqrt (denomX * denomY)
    if denominator = 0 then 0 else numerator / denominator

/-- `calculateRSquared(returns, marketReturns)`. -/
def calculateRSquared (returns marketReturns : List ℚ) : ℚ :=
  if returns.length = 0 then 0
  else calculateCorrelation returns marketReturns ^ 2

/-- `calculateGainToPainRatio(returns)`. -/
def calculateGainToPainRatio (returns : List ℚ) : ℚ :=
  if returns.length = 0 then 0
  else
    let sumReturns := returns.sum
    let sumAbsReturns := (returns.map jsAbs).sum
    if sumAbsReturns = 0 then 0 else sumReturns / sumAbsReturns

/-! ## Basic metrics — src/js/calculations/basic-metrics.js -/

/-- A trade record as consumed by `calculateProfitFactor`; only the
`realizedPnl` field matters (`null` modelled as `none`). -/
structure Trade where
  realizedPnl : Option ℚ

/-- `trade.realizedPnl || 0`: null/undefined coerce to 0. -/
def tradePnl (t : Trade) : ℚ :=
  t.realizedPnl.getD 0

/-- Gross profit accumulated by `calculateProfitFactor`'s forEach loop:
sum of strictly positive P&L values. -/
def grossProfitOf (trades : List Trade) : ℚ :=
  (trades.map (fun t => if 0 < tradePnl t then tradePnl t else 0)).sum

/-- Gross loss accumulated by `calculateProfitFactor`'s forEach loop:
sum of `Math.abs(pnl)` over trades with non-positive P&L. -/
def grossLossOf (trades : List Trade) : ℚ :=
  (trades.map (fun t => if 0 < tradePnl t then 0 else jsAbs (tradePnl t))).sum

/-- `calculateProfitFactor(trades)`. -/
def calculateProfitFactor (trades : List Trade) : ℚ :=
  if trades.length = 0 then 0
  else if grossLossOf trades = 0 then
    (if 0 < grossProfitOf trades then 999 else 0)
  else grossProfitOf trades / grossLossOf trades

/-! ## Max drawdown — src/js/calculations/risk-metrics.js

The claims exercise `calculateMaxDrawdown` on plain numeric equity curves,
so the curve is modelled as `List ℚ` (the source's `typeof === 'object'`
normalization for `{equity: …}` points is the identity on plain numbers). -/

/-- Loop state of `calculateMaxDrawdown`, one field per mutable local. -/
structure MDDState where
  maxDrawdown : ℚ
  maxDrawdownPct : ℚ
  peak : ℚ
  peakIndex : ℕ
  troughIndex : ℕ
  maxDuration : ℕ
  currentDuration : ℕ
  drawdownStart : ℕ

/-- One iteration of the `calculateMaxDrawdown` loop at index `i` on
value `v`. -/
def mddStep (i : ℕ) (st : MDDState) (v : ℚ) : MDDState :=
  if st.peak < v then
    { st with peak := v, peakIndex := i, currentDuration := 0, drawdownStart := i }
  else
    let currentDuration := i - st.drawdownStart
    let drawdown := st.peak - v
    let drawdownPct := drawdown / st.peak * 100
    if st.maxDrawdown < drawdown then
      { st with maxDrawdown := drawdown, maxDrawdownPct := drawdownPct,
                troughIndex := i, maxDuration := currentDuration,
                currentDuration := currentDuration }
    else { st with currentDuration := currentDuration }

/-- The `calculateMaxDrawdown` loop over the remaining curve, `i` being
the index of the next element. -/
def mddGo (i : ℕ) (st : MDDState) : List ℚ → MDDState
  | [] => st
  | v :: rest => mddGo (i + 1) (mddStep i st v) rest

/-- Result record of `calculateMaxDrawdown`. -/
structure DrawdownResult where
  value : ℚ
  percentage : ℚ
  duration : ℕ
  peakIndex : ℕ
  troughIndex : ℕ

/-- `calculateMaxDrawdown(equityCurve)`: single pass tracking the running
peak; records the single worst absolute drawdown together with the
percentage, duration and trough index observed at that same point. -/
def calculateMaxDrawdown (equityCurve : List ℚ) : DrawdownResult :=
  match equityCurve with
  | [] => ⟨0, 0, 0, 0, 0⟩
  | x :: xs =>
    let st := mddGo 0 ⟨0, 0, x, 0, 0, 0, 0, 0⟩ (x :: xs)
    ⟨st.maxDrawdown, st.maxDrawdownPct, st.maxDuration, st.peakIndex, st.troughIndex⟩

/-- Running peak of an equity curve: maximum of the first `j+1` elements
(0 for the empty curve). Used to state what `calculateMaxDrawdown`
computes, not used by the embedding itself. -/
def prefixMax : List ℚ → ℕ → ℚ
  | [], _ => 0
  | x :: _, 0 => x
  | x :: xs, j + 1 => max x (prefixMax xs j)

/-! ## Sharpe/Sortino helper library — src/risk-metrics.js -/

/-- The `denominator` option of `computeSortino`. -/
inductive SortinoDenominator
  | all
  | negative

/-- A JS number that may be `Infinity`, as returned by `computeSortino`. -/
inductive ExtNum
  | num (q : ℚ)
  | inf
deriving DecidableEq

/-- `computeSortino(returns, mar, denominator)` from src/risk-metrics.js:
returns `Infinity` when there is no downside ('negative' mode with no
negative excess return) or when the downside deviation is 0. -/
def computeSortino (returns : List ℚ) (mar : ℚ) (denominator : SortinoDenominator) : ExtNum :=
  if returns.length = 0 then .num 0
  else
    let excess := returns.map (fun r => r - mar)
    let mu := mean excess
    let downs := excess.map (fun x => min 0 x)
    match denominator with
    | .all =>
      let dd := ratSqrt ((downs.map (fun d => d * d)).sum / (returns.length : ℚ))
      if 0 < dd then .num (mu / dd) else .inf
    | .negative =>
      let neg := downs.filter (fun d => d < 0)
      if neg.length = 0 then .inf
      else
        let dd := ratSqrt ((neg.map (fun d => d * d)).sum / (neg.length : ℚ))
        if 0 < dd then .num (mu / dd) else .inf

/-- Helper loop of `computeReturnsFromEquitySeries`: `prev` is the
previous equity value. A return is pushed only when `prev > 0`. -/
def crGo (prev : ℚ) : List ℚ → List ℚ
  | [] => []
  | curr :: rest => (if 0 < prev then [curr / prev - 1] else []) ++ crGo curr rest

/-- `computeReturnsFromEquitySeries(equitySeries)` for numeric series
(`parseFloat` and the `isNumber` checks are the identity on plain finite
numbers, and `x || 0` maps 0 to 0). -/
def computeReturnsFromEquitySeries : List ℚ → List ℚ
  | [] => []
  | x :: rest => crGo x rest

/-- `median(values)` from src/risk-metrics.js: 0 on empty input, middle
element of the ascending sort for odd length, average of the two middle
elements for even length. -/
def median (values : List ℚ) : ℚ :=
  if values.length = 0 then 0
  else
    let arr := sortAsc values
    let mid := arr.length / 2
    if arr.length % 2 = 1 then arr.getD mid 0
    else (arr.getD (mid - 1) 0 + arr.getD mid 0) / 2

/-- `detectPeriodsPerYearFromTimestamps(timestamps)` for numeric epoch
timestamps in milliseconds (`new Date(t).getTime()` is the identity there
and no element is filtered as NaN): returns 0 when fewer than two
timestamps are supplied; otherwise sorts, takes successive gaps in
seconds, replaces a zero median gap by 3600 (`median(diffs) || 3600`) and
returns `max(1, secondsPerYear / medianGap)` with
`secondsPerYear = 365.25*24*3600 = 31557600`. -/
def detectPeriodsPerYearFromTimestamps (timestamps : List ℚ) : ℚ :=
  if timestamps.length < 2 then 0
  else
    let secs := sortAsc timestamps
    let diffs := (secs.zip secs.tail).map (fun p => (p.2 - p.1) / 1000)
    let m0 := median diffs
    let m := if m0 = 0 then 3600 else m0
    max 1 ((31557600 : ℚ) / m)

/-! ## Helper lemmas -/

theorem jsAbs_nonneg (q : ℚ) : 0 ≤ jsAbs q := by
  unfold jsAbs; split <;> linarith

theorem jsAbs_of_nonpos {q : ℚ} (h : q ≤ 0) : jsAbs q = -q := by
  unfold jsAbs
  rcases lt_or_eq_of_le h with h' | h'
  · simp [h']
  · simp [h']

theorem jsAbs_anti_of_nonpos {a b : ℚ} (hab : a ≤ b) (hb : b ≤ 0) :
    jsAbs b ≤ jsAbs a := by
  rw [jsAbs_of_nonpos hb, jsAbs_of_nonpos (hab.trans hb)]
  linarith

theorem ratSqrt_zero : ratSqrt 0 = 0 := by
  norm_num [ratSqrt]

theorem sortAsc_sorted (l : List ℚ) : (sortAsc l).Sorted (· ≤ ·) :=
  List.sorted_insertionSort _ l

theorem sortAsc_length (l : List ℚ) : (sortAsc l).length = l.length :=
  (List.perm_insertionSort _ l).length_eq

theorem head_le_prefixMax (x : ℚ) (xs : List ℚ) (j : ℕ) :
    x ≤ prefixMax (x :: xs) j := by
  cases j with
  | zero => simp [prefixMax]
  | succ j => simp [prefixMax]

theorem sorted_getD_mono {l : List ℚ} (hs : l.Sorted (· ≤ ·)) {i j : ℕ}
    (hij : i ≤ j) (hj : j < l.length) : l.getD i 0 ≤ l.getD j 0 := by
  have hi : i < l.length := lt_of_le_of_lt hij hj
  rw [List.getD_eq_getElem l 0 hi, List.getD_eq_getElem l 0 hj]
  have := hs.rel_get_of_le
    (a := ⟨i, hi⟩) (b := ⟨j, hj⟩) (by exact hij)
  simpa using this

theorem sorted_take_le {l : List ℚ} (hs : l.Sorted (· ≤ ·)) {j : ℕ}
    (hj : j < l.length) : ∀ x ∈ l.take (j + 1), x ≤ l.getD j 0 := by
  intro x hx
  obtain ⟨i, hget⟩ := List.mem_iff_get.mp hx
  have h2 : (i : ℕ) < min (j + 1) l.length := by
    simpa [List.length_take] using i.isLt
  have hi : (i : ℕ) < j + 1 := lt_of_lt_of_le h2 (min_le_left _ _)
  have hil : (i : ℕ) < l.length := lt_of_lt_of_le h2 (min_le_right _ _)
  have hstep : (l.take (j + 1)).get i = l.getD (i : ℕ) 0 := by
    rw [List.getD_eq_getElem l 0 hil]
    simp [List.getElem_take]
  rw [← hget, hstep]
  exact sorted_getD_mono hs (by omega) hj

/-! ## Claim theorems -/

/-- C3 (code_bug): the spec says Calmar and Sterling return 999 when the
drawdown denominator is 0 and the excess return is positive, and the
source even contains that branch — but the leading guard
`… || maxDrawdown === 0 → return 0` makes it unreachable, so both
functions return 0 for a zero drawdown denominator regardless of the sign
of the excess return. At the failing input `returns = [0.01]`,
`periodsPerYear = 252` the annualized (excess) return is positive, yet
both functions return 0 instead of the claimed 999. -/
theorem calmar_sterling_zero_drawdown_returns_zero :
    (0:ℚ) < mean [1/100] * 252 ∧
    calculateCalmarRatio [1/100] 0 252 = 0 ∧
    (0:ℚ) < mean [1/100] * 252 - 0 ∧
    calculateSterlingRatio [1/100] 0 0 252 = 0 ∧
    (∀ (returns : List ℚ) (ppy : ℚ), calculateCalmarRatio returns 0 ppy = 0) ∧
    (∀ (returns : List ℚ) (rf ppy : ℚ), calculateSterlingRatio returns 0 rf ppy = 0) := by
  refine ⟨by norm_num [mean], by norm_num [calculateCalmarRatio],
    by norm_num [mean], by norm_num [calculateSterlingRatio], ?_, ?_⟩
  · intro returns ppy; simp [calculateCalmarRatio]
  · intro returns rf ppy; simp [calculateSterlingRatio]

/-- C5 (counterexample): `calculateAlpha` has no empty-input guard; on an
empty returns array it yields `-riskFreeRate`, which is nonzero for any
nonzero risk-free rate — here `calculateAlpha([], [0.1], 0.05) = -0.05`. -/
theorem calculateAlpha_empty_counterexample :
    calculateAlpha [] [1/10] (1/20) = -(1/20) ∧ (-(1/20) : ℚ) ≠ 0 := by
  constructor
  · norm_num [calculateAlpha, calculateBeta, mean]
  · norm_num

/-- C5 (amended): every embedded risk-adjusted ratio function returns 0 on
an empty returns array, except `calculateAlpha`, which returns
`-riskFreeRate` (0 only when the risk-free rate is 0). -/
theorem ratio_functions_on_empty_returns :
    ∀ (m bm dds : List ℚ) (rf af t th dd ppy : ℚ),
    calculateSharpeRatio [] rf af = 0 ∧
    calculateSortinoRatio [] t af = 0 ∧
    calculateCalmarRatio [] dd ppy = 0 ∧
    calculateOmegaRatio [] th = 0 ∧
    calculateSterlingRatio [] dd rf ppy = 0 ∧
    calculateBurkeRatio [] dds rf = 0 ∧
    calculateTreynorRatio [] m rf = 0 ∧
    calculateBeta [] m = 0 ∧
    calculateInformationRatio [] bm = 0 ∧
    calculateRSquared [] m = 0 ∧
    calculateGainToPainRatio [] = 0 ∧
    calculateAlpha [] m rf = -rf := by
  intro m bm dds rf af t th dd ppy
  refine ⟨by simp [calculateSharpeRatio], by simp [calculateSortinoRatio],
    by simp [calculateCalmarRatio], by simp [calculateOmegaRatio],
    by simp [calculateSterlingRatio], by simp [calculateBurkeRatio],
    by simp [calculateTreynorRatio], by simp [calculateBeta],
    by simp [calculateInformationRatio], by simp [calculateRSquared],
    by simp [calculateGainToPainRatio], ?_⟩
  simp [calculateAlpha, calculateBeta, mean]

/-- C7 (confirmed): max drawdown of the monotonically increasing curve
`[100,110,120,130]` is value 0, percentage 0, duration 0; on
`[100,80,90,70,120]` the trough is at index 3 (equity 70), the drawdown is
measured from peak 100 (absolute value `100 - 70 = 30`) and the
percentage is 30. -/
theorem maxDrawdown_concrete_examples :
    (calculateMaxDrawdown [100, 110, 120, 130]).value = 0 ∧
    (calculateMaxDrawdown [100, 110, 120, 130]).percentage = 0 ∧
    (calculateMaxDrawdown [100, 110, 120, 130]).duration = 0 ∧
    (calculateMaxDrawdown [100, 80, 90, 70, 120]).troughIndex = 3 ∧
    [(100:ℚ), 80, 90, 70, 120].getD 3 0 = 70 ∧
    (calculateMaxDrawdown [100, 80, 90, 70, 120]).value = 100 - 70 ∧
    (calculateMaxDrawdown [100, 80, 90, 70, 120]).percentage = 30 := by
  refine ⟨?_, ?_, ?_, ?_, by norm_num, ?_, ?_⟩ <;>
    norm_num [calculateMaxDrawdown, mddGo, mddStep]

theorem crGo_eq_filterMap (rest : List ℚ) : ∀ (prev : ℚ),
    crGo prev rest = ((prev :: rest).zip rest).filterMap
      (fun p => if 0 < p.1 then some (p.2 / p.1 - 1) else none) := by
  induction rest with
  | nil => intro prev; rfl
  | cons curr rest ih =>
    intro prev
    simp only [crGo, List.zip_cons_cons, List.filterMap_cons, ih curr]
    split <;> simp

/-- C8 (confirmed): the derived return series contains
`equity[i]/equity[i-1] - 1` exactly for the consecutive pairs whose
previous value is strictly positive (invalid pairs are skipped, shortening
the output); in particular `[100, 110, 99]` yields exactly
`[0.10, -0.10]`. -/
theorem returns_from_equity_series_spec :
    (∀ (es : List ℚ), computeReturnsFromEquitySeries es =
      (es.zip es.tail).filterMap
        (fun p => if 0 < p.1 then some (p.2 / p.1 - 1) else none)) ∧
    computeReturnsFromEquitySeries [100, 110, 99] = [1/10, -1/10] := by
  constructor
  · intro es
    cases es with
    | nil => rfl
    | cons x rest => simpa [computeReturnsFromEquitySeries] using crGo_eq_filterMap rest x
  · norm_num [computeReturnsFromEquitySeries, crGo]

/-- C9 (counterexample): for fewer than two timestamps the sampling-
frequency layer returns 0, not the claimed value of at least 1 obtained
from a 3600-second fallback gap. -/
theorem detectPeriodsPerYear_short_input_counterexample :
    detectPeriodsPerYearFromTimestamps [] = 0 ∧
    detectPeriodsPerYearFromTimestamps [0] = 0 ∧
    ¬(1 ≤ detectPeriodsPerYearFromTimestamps []) := by
  refine ⟨by norm_num [detectPeriodsPerYearFromTimestamps],
    by norm_num [detectPeriodsPerYearFromTimestamps], ?_⟩
  norm_num [detectPeriodsPerYearFromTimestamps]

/-- C9 (amended): with at least two timestamps the result is
`max(1, secondsPerYear / medianGap) ≥ 1`, with a 3600-second fallback when
the median gap is 0 (e.g. all-identical timestamps give
`31557600/3600 = 8766`); with fewer than two timestamps the function
returns 0 instead of applying any fallback. -/
theorem detectPeriodsPerYear_policy :
    (∀ (ts : List ℚ), ts.length < 2 → detectPeriodsPerYearFromTimestamps ts = 0) ∧
    (∀ (ts : List ℚ), 2 ≤ ts.length → 1 ≤ detectPeriodsPerYearFromTimestamps ts) ∧
    detectPeriodsPerYearFromTimestamps [0, 0, 0] = 8766 := by
  refine ⟨?_, ?_, ?_⟩
  · intro ts h; simp [detectPeriodsPerYearFromTimestamps, h]
  · intro ts h
    rw [detectPeriodsPerYearFromTimestamps]
    rw [if_neg (by omega)]
    exact le_max_left 1 _
  · norm_num [detectPeriodsPerYearFromTimestamps, sortAsc, List.insertionSort,
      List.orderedInsert, median]

/-- C4 (counterexample): the root-library Sortino implementation does not
follow the 999/0 policy: with no downside (`returns = [0.01]`, target 0)
`computeSortino` returns `Infinity`, which is neither 999 nor 0. -/
theorem computeSortino_returns_infinity :
    computeSortino [1/100] 0 .negative = .inf ∧
    ExtNum.inf ≠ ExtNum.num 999 ∧ ExtNum.inf ≠ ExtNum.num 0 := by
  refine ⟨?_, by simp, by simp⟩
  norm_num [computeSortino, mean, List.filter]

/-- C4 (amended): when the downside deviation is 0, the advanced-metrics
Sortino returns 999 exactly when the mean return strictly exceeds the
target and 0 otherwise; the root-library `computeSortino`, however,
returns `Infinity` (not 999/0) whenever there is no downside, in both
denominator modes. -/
theorem sortino_zero_downside_policy :
    ∀ (returns : List ℚ) (target af mar : ℚ), returns ≠ [] →
    (downsideDeviation returns target = 0 →
      calculateSortinoRatio returns target af =
        if target < mean returns then 999 else 0) ∧
    ((∀ r ∈ returns, mar ≤ r) →
      computeSortino returns mar .negative = .inf ∧
      computeSortino returns mar .all = .inf) := by
  intro returns target af mar hne
  constructor
  · intro hdd
    simp [calculateSortinoRatio, List.length_eq_zero, hne, hdd]
  · intro hmem
    have hdowns : (returns.map (fun r => r - mar)).map (fun x => min 0 x) =
        returns.map (fun _ => (0:ℚ)) := by
      simp only [List.map_map]
      apply List.map_congr_left
      intro r hr
      simp [Function.comp, min_eq_left, sub_nonneg.mpr (hmem r hr)]
    constructor
    · simp [computeSortino, List.length_eq_zero, hne, hdowns, List.filter]
    · simp [computeSortino, List.length_eq_zero, hne, hdowns, ratSqrt_zero]

/-- Witness for the C4 amended theorem: one positive return, target and
MAR 0 — zero downside deviation, mean above target. -/
theorem sortino_zero_downside_policy_witness :
    calculateSortinoRatio [1/100] 0 252 = 999 ∧
    computeSortino [1/100] 0 .negative = ExtNum.inf := by
  have h := sortino_zero_downside_policy [1/100] 0 252 0 (by simp)
  constructor
  · have hdd : downsideDeviation [1/100] 0 = 0 := by
      norm_num [downsideDeviation, mean, ratSqrt]
    rw [h.1 hdd]
    norm_num [mean]
  · exact (h.2 (by norm_num)).1

/-- C6 (counterexample): the "saturates to 999 exactly when" claim fails
in the only-if direction: a gain/loss quotient can coincidentally equal
999 with a nonzero loss aggregate, e.g. trades with P&L `[999, -1]` give
profit factor `999/1 = 999`, and returns `[999, -1]` give Omega
`999/1 = 999`. -/
theorem profitFactor_omega_sentinel_not_iff :
    calculateProfitFactor [⟨some 999⟩, ⟨some (-1)⟩] = 999 ∧
    grossLossOf [⟨some 999⟩, ⟨some (-1)⟩] = 1 ∧
    calculateOmegaRatio [999, -1] 0 = 999 ∧
    omegaLosses [999, -1] 0 = 1 := by
  refine ⟨?_, ?_, ?_, ?_⟩ <;>
    norm_num [calculateProfitFactor, grossProfitOf, grossLossOf, tradePnl, jsAbs,
      calculateOmegaRatio, omegaGains, omegaLosses]

/-- C6 (amended): profit factor and Omega return 999 when the loss-side
aggregate is 0 and the gain-side aggregate is positive, and 0 when both
aggregates are 0; conversely a result of 999 means either that sentinel
case or a coincidental gain/loss quotient equal to 999. -/
theorem profitFactor_omega_sentinel_policy :
    ∀ (trades : List Trade) (returns : List ℚ) (t : ℚ),
    trades ≠ [] → returns ≠ [] →
    ((grossLossOf trades = 0 ∧ 0 < grossProfitOf trades) →
      calculateProfitFactor trades = 999) ∧
    ((grossLossOf trades = 0 ∧ grossProfitOf trades = 0) →
      calculateProfitFactor trades = 0) ∧
    (calculateProfitFactor trades = 999 →
      (grossLossOf trades = 0 ∧ 0 < grossProfitOf trades) ∨
      grossProfitOf trades = 999 * grossLossOf trades) ∧
    ((omegaLosses returns t = 0 ∧ 0 < omegaGains returns t) →
      calculateOmegaRatio returns t = 999) ∧
    ((omegaLosses returns t = 0 ∧ omegaGains returns t = 0) →
      calculateOmegaRatio returns t = 0) ∧
    (calculateOmegaRatio returns t = 999 →
      (omegaLosses returns t = 0 ∧ 0 < omegaGains returns t) ∨
      omegaGains returns t = 999 * omegaLosses returns t) := by
  intro trades returns t htne hrne
  have htl : ¬(trades.length = 0) := by simpa [List.length_eq_zero] using htne
  have hrl : ¬(returns.length = 0) := by simpa [List.length_eq_zero] using hrne
  refine ⟨?_, ?_, ?_, ?_, ?_, ?_⟩
  · rintro ⟨hl, hp⟩
    simp [calculateProfitFactor, htl, hl, hp]
  · rintro ⟨hl, hp⟩
    simp [calculateProfitFactor, htl, hl, hp]
  · intro h999
    rw [calculateProfitFactor, if_neg htl] at h999
    by_cases hl : grossLossOf trades = 0
    · rw [if_pos hl] at h999
      by_cases hp : 0 < grossProfitOf trades
      · exact Or.inl ⟨hl, hp⟩
      · rw [if_neg hp] at h999; norm_num at h999
    · rw [if_neg hl] at h999
      exact Or.inr ((div_eq_iff hl).mp h999)
  · rintro ⟨hl, hp⟩
    simp [calculateOmegaRatio, hrl, hl, hp]
  · rintro ⟨hl, hp⟩
    simp [calculateOmegaRatio, hrl, hl, hp]
  · intro h999
    rw [calculateOmegaRatio, if_neg hrl] at h999
    by_cases hl : omegaLosses returns t = 0
    · rw [if_pos hl] at h999
      by_cases hp : 0 < omegaGains returns t
      · exact Or.inl ⟨hl, hp⟩
      · rw [if_neg hp] at h999; norm_num at h999
    · rw [if_neg hl] at h999
      exact Or.inr ((div_eq_iff hl).mp h999)

/-- C1 (counterexample): historical VaR is not monotone in the confidence
level: for the all-positive sample `[0.01, 0.02]` the VaR at confidence
0.3 is 0.02 but at the higher confidence 0.6 it is only 0.01. -/
theorem var_monotonicity_counterexample :
    (3:ℚ)/10 ≤ 6/10 ∧
    calculateVaR [1/100, 2/100] (6/10) .historical <
      calculateVaR [1/100, 2/100] (3/10) .historical := by
  constructor
  · norm_num
  · norm_num [calculateVaR, historicalVaR, sortAsc, List.insertionSort,
      List.orderedInsert, jsGet, jsAbs, Int.toNat]

/-- C1 (amended): `calculateVaR` is non-negative for every input and
method; historical VaR is monotone non-decreasing in the confidence for
`c1 ≤ c2 ≤ 1` provided the sorted return selected at the lower confidence
`c1` is non-positive (i.e. the quantile picked is a loss). -/
theorem var_nonneg_and_conditional_monotone :
    (∀ (returns : List ℚ) (c : ℚ) (m : VaRMethod), 0 ≤ calculateVaR returns c m) ∧
    (∀ (returns : List ℚ) (c1 c2 : ℚ), c1 ≤ c2 → c2 ≤ 1 →
      jsGet (sortAsc returns) ⌊(1 - c1) * (returns.length : ℚ)⌋ ≤ 0 →
      calculateVaR returns c1 .historical ≤ calculateVaR returns c2 .historical) := by
  constructor
  · intro returns c m
    rw [calculateVaR.eq_def]
    split
    · exact le_refl 0
    · cases m
      · rw [historicalVaR]; exact jsAbs_nonneg _
      · rw [parametricVaR]; exact jsAbs_nonneg _
  · intro returns c1 c2 h12 h21 hle
    by_cases hn : returns.length = 0
    · simp [calculateVaR, hn]
    · rw [calculateVaR.eq_def, if_neg hn, calculateVaR.eq_def, if_neg hn]
      show historicalVaR returns c1 ≤ historicalVaR returns c2
      rw [historicalVaR, historicalVaR]
      have hnq : (0:ℚ) ≤ (returns.length : ℚ) := Nat.cast_nonneg _
      have hfl : ⌊(1 - c2) * (returns.length : ℚ)⌋ ≤
          ⌊(1 - c1) * (returns.length : ℚ)⌋ :=
        Int.floor_le_floor (by nlinarith)
      have h2nonneg : 0 ≤ ⌊(1 - c2) * (returns.length : ℚ)⌋ :=
        Int.le_floor.mpr (by push_cast; nlinarith)
      have h1nonneg : 0 ≤ ⌊(1 - c1) * (returns.length : ℚ)⌋ :=
        le_trans h2nonneg hfl
      rw [jsGet, if_pos h1nonneg] at hle ⊢
      rw [jsGet, if_pos h2nonneg]
      by_cases hrange : (⌊(1 - c1) * (returns.length : ℚ)⌋).toNat <
          (sortAsc returns).length
      · exact jsAbs_anti_of_nonpos
          (sorted_getD_mono (sortAsc_sorted returns)
            (Int.toNat_le_toNat hfl) hrange) hle
      · rw [List.getD_eq_default _ 0 (le_of_not_lt hrange)]
        calc jsAbs 0 = 0 := by norm_num [jsAbs]
        _ ≤ _ := jsAbs_nonneg _

/-- Witness for the C1 amended theorem at a concrete loss-side sample. -/
theorem var_nonneg_and_conditional_monotone_witness :
    0 ≤ calculateVaR [1/100] (95/100) .historical ∧
    calculateVaR [-2/10, -1/10] (1/2) .historical ≤
      calculateVaR [-2/10, -1/10] 1 .historical :=
  ⟨var_nonneg_and_conditional_monotone.1 [1/100] (95/100) .historical,
   var_nonneg_and_conditional_monotone.2 [-2/10, -1/10] (1/2) 1
     (by norm_num) (le_refl 1)
     (by norm_num [jsGet, sortAsc, List.insertionSort, List.orderedInsert,
        Int.toNat])⟩

/-- C2 (counterexample): CVaR can be strictly smaller than historical VaR
when the return at the VaR rank is a gain: for ten positive returns at
confidence 0.8, VaR is 0.03 but CVaR (the average of the three smallest
returns) is only 0.02. -/
theorem cvar_dominance_counterexample :
    calculateCVaR [1/100, 2/100, 3/100, 4/100, 5/100, 6/100, 7/100, 8/100,
      9/100, 10/100] (8/10) = some (1/50) ∧
    calculateVaR [1/100, 2/100, 3/100, 4/100, 5/100, 6/100, 7/100, 8/100,
      9/100, 10/100] (8/10) .historical = 3/100 ∧
    (1:ℚ)/50 < 3/100 := by
  refine ⟨?_, ?_, by norm_num⟩
  · norm_num [calculateCVaR, sortAsc, List.insertionSort, List.orderedInsert,
      jsAbs, Int.toNat]
  · norm_num [calculateVaR, historicalVaR, sortAsc, List.insertionSort,
      List.orderedInsert, jsGet, jsAbs, Int.toNat]

/-- C2 (amended): for a positive confidence level, whenever the sorted
return at the VaR rank is non-positive (the empirical quantile is a loss),
CVaR is defined (a number, not NaN) and dominates the historical VaR. -/
theorem cvar_dominates_var :
    ∀ (returns : List ℚ) (c : ℚ), 0 < c →
      jsGet (sortAsc returns) ⌊(1 - c) * (returns.length : ℚ)⌋ ≤ 0 →
      ∃ v, calculateCVaR returns c = some v ∧
        calculateVaR returns c .historical ≤ v := by
  intro returns c hc hle
  by_cases hn : returns.length = 0
  · exact ⟨0, by simp [calculateCVaR, hn], by simp [calculateVaR, hn]⟩
  · have hnpos : 0 < returns.length := Nat.pos_of_ne_zero hn
    have hnq : (0:ℚ) < (returns.length : ℚ) := by exact_mod_cast hnpos
    have hkn : ⌊(1 - c) * (returns.length : ℚ)⌋ < (returns.length : ℤ) :=
      Int.floor_lt.mpr (by push_cast; nlinarith)
    by_cases hneg : ⌊(1 - c) * (returns.length : ℚ)⌋ < 0
    · refine ⟨0, ?_, ?_⟩
      · rw [calculateCVaR, if_neg hn]
        simp only [if_pos hneg]
      · rw [calculateVaR.eq_def, if_neg hn]
        show historicalVaR returns c ≤ 0
        rw [historicalVaR, jsGet, if_neg (not_le.mpr hneg)]
        norm_num [jsAbs]
    · push_neg at hneg
      set k : ℤ := ⌊(1 - c) * (returns.length : ℚ)⌋ with hkdef
      have hkrange : k.toNat < (sortAsc returns).length := by
        rw [sortAsc_length]; omega
      refine ⟨jsAbs (((sortAsc returns).take (k.toNat + 1)).sum /
        (k.toNat + 1 : ℚ)), ?_, ?_⟩
      · rw [calculateCVaR, if_neg hn]
        simp only [if_neg (not_lt.mpr hneg), if_neg (not_le.mpr hkn)]
      · rw [calculateVaR.eq_def, if_neg hn]
        show historicalVaR returns c ≤ _
        rw [historicalVaR, jsGet, if_pos hneg]
        rw [jsGet, if_pos hneg] at hle
        have havg : ((sortAsc returns).take (k.toNat + 1)).sum /
            (k.toNat + 1 : ℚ) ≤ (sortAsc returns).getD k.toNat 0 := by
          have hsum := List.sum_le_card_nsmul ((sortAsc returns).take (k.toNat + 1))
            ((sortAsc returns).getD k.toNat 0)
            (sorted_take_le (sortAsc_sorted returns) hkrange)
          have hlen : ((sortAsc returns).take (k.toNat + 1)).length = k.toNat + 1 := by
            rw [List.length_take]
            omega
          rw [hlen, nsmul_eq_mul] at hsum
          rw [div_le_iff₀ (by positivity)]
          calc ((sortAsc returns).take (k.toNat + 1)).sum
              ≤ (k.toNat + 1 : ℚ) * (sortAsc returns).getD k.toNat 0 := by
                exact_mod_cast hsum
            _ = (sortAsc returns).getD k.toNat 0 * (k.toNat + 1 : ℚ) := by ring
        exact jsAbs_anti_of_nonpos havg hle

/-- Witness for the C2 amended theorem at a concrete loss-side sample. -/
theorem cvar_dominates_var_witness :
    ∃ v, calculateCVaR [-3/10, -1/10, 2/10] (2/3) = some v ∧
      calculateVaR [-3/10, -1/10, 2/10] (2/3) .historical ≤ v :=
  cvar_dominates_var [-3/10, -1/10, 2/10] (2/3) (by norm_num)
    (by norm_num [jsGet, sortAsc, List.insertionSort, List.orderedInsert,
      Int.toNat])

/-- Witness for the C6 amended theorem: a single winning trade and a
single positive return saturate both ratios to 999. -/
theorem profitFactor_omega_sentinel_policy_witness :
    calculateProfitFactor [⟨some 1⟩] = 999 ∧ calculateOmegaRatio [1] 0 = 999 := by
  have h := profitFactor_omega_sentinel_policy [⟨some 1⟩] [1] 0 (by simp) (by simp)
  exact ⟨h.1 ⟨by norm_num [grossLossOf, tradePnl, jsAbs],
      by norm_num [grossProfitOf, tradePnl]⟩,
    h.2.2.2.1 ⟨by norm_num [omegaLosses], by norm_num [omegaGains]⟩⟩

/-! ## Max-drawdown loop invariants (for C10) -/

theorem mddStep_maxDrawdown_le (i : ℕ) (st : MDDState) (v : ℚ) :
    st.maxDrawdown ≤ (mddStep i st v).maxDrawdown := by
  rw [mddStep]
  split
  · exact le_refl _
  · dsimp only
    split
    · next h => exact le_of_lt h
    · exact le_refl _

theorem mddGo_maxDrawdown_mono (rest : List ℚ) : ∀ (i : ℕ) (st : MDDState),
    st.maxDrawdown ≤ (mddGo i st rest).maxDrawdown := by
  induction rest with
  | nil => intro i st; exact le_refl _
  | cons v rest ih =>
    intro i st
    exact le_trans (mddStep_maxDrawdown_le i st v) (ih (i + 1) (mddStep i st v))

theorem mddStep_peak (i : ℕ) (st : MDDState) (v : ℚ) :
    (mddStep i st v).peak = max st.peak v := by
  rw [mddStep]
  split
  · next h => simp [max_eq_right (le_of_lt h)]
  · next h =>
    dsimp only
    split <;> simp [max_eq_left (le_of_not_lt h)]

theorem mddStep_keep (i : ℕ) (st : MDDState) (v : ℚ)
    (h : st.peak < v ∨ ¬ st.maxDrawdown < st.peak - v) :
    (mddStep i st v).maxDrawdown = st.maxDrawdown ∧
    (mddStep i st v).maxDrawdownPct = st.maxDrawdownPct ∧
    (mddStep i st v).troughIndex = st.troughIndex := by
  rw [mddStep]
  by_cases hp : st.peak < v
  · rw [if_pos hp]; exact ⟨rfl, rfl, rfl⟩
  · rcases h with h | h
    · exact absurd h hp
    · rw [if_neg hp]
      dsimp only
      rw [if_neg h]
      exact ⟨rfl, rfl, rfl⟩

theorem mddStep_update (i : ℕ) (st : MDDState) (v : ℚ)
    (hp : ¬ st.peak < v) (h : st.maxDrawdown < st.peak - v) :
    (mddStep i st v).maxDrawdown = st.peak - v ∧
    (mddStep i st v).maxDrawdownPct = (st.peak - v) / st.peak * 100 ∧
    (mddStep i st v).troughIndex = i := by
  rw [mddStep, if_neg hp]
  dsimp only
  rw [if_pos h]
  exact ⟨rfl, rfl, rfl⟩

theorem mdd_lower_bound (rest : List ℚ) : ∀ (i : ℕ) (st : MDDState),
    0 ≤ st.maxDrawdown → ∀ j, j < rest.length →
    max st.peak (prefixMax rest j) - rest.getD j 0 ≤ (mddGo i st rest).maxDrawdown := by
  induction rest with
  | nil => intro i st _ j hj; simp at hj
  | cons v rest ih =>
    intro i st h0 j hj
    have hstep0 : 0 ≤ (mddStep i st v).maxDrawdown :=
      le_trans h0 (mddStep_maxDrawdown_le i st v)
    cases j with
    | zero =>
      have hbase : max st.peak v - v ≤ (mddStep i st v).maxDrawdown := by
        by_cases hp : st.peak < v
        · rw [max_eq_right (le_of_lt hp)]
          simpa using hstep0
        · rw [max_eq_left (le_of_not_lt hp)]
          by_cases hdd : st.maxDrawdown < st.peak - v
          · rw [(mddStep_update i st v hp hdd).1]
          · rw [(mddStep_keep i st v (Or.inr hdd)).1]
            exact le_of_not_lt hdd
      calc max st.peak (prefixMax (v :: rest) 0) - (v :: rest).getD 0 0
          = max st.peak v - v := by rw [prefixMax]; rfl
        _ ≤ (mddStep i st v).maxDrawdown := hbase
        _ ≤ (mddGo (i + 1) (mddStep i st v) rest).maxDrawdown :=
            mddGo_maxDrawdown_mono rest (i + 1) (mddStep i st v)
    | succ j =>
      have hj' : j < rest.length := by simpa using hj
      have hrec := ih (i + 1) (mddStep i st v) hstep0 j hj'
      calc max st.peak (prefixMax (v :: rest) (j + 1)) - (v :: rest).getD (j + 1) 0
          = max (mddStep i st v).peak (prefixMax rest j) - rest.getD j 0 := by
            rw [prefixMax, mddStep_peak, max_assoc]
            rfl
        _ ≤ _ := hrec

theorem mdd_attained (rest : List ℚ) : ∀ (i : ℕ) (st : MDDState),
    ((mddGo i st rest).maxDrawdown = st.maxDrawdown ∧
     (mddGo i st rest).maxDrawdownPct = st.maxDrawdownPct ∧
     (mddGo i st rest).troughIndex = st.troughIndex) ∨
    (∃ j, j < rest.length ∧ (mddGo i st rest).troughIndex = i + j ∧
      (mddGo i st rest).maxDrawdown = max st.peak (prefixMax rest j) - rest.getD j 0 ∧
      (mddGo i st rest).maxDrawdownPct =
        (mddGo i st rest).maxDrawdown / max st.peak (prefixMax rest j) * 100) := by
  induction rest with
  | nil => intro i st; exact Or.inl ⟨rfl, rfl, rfl⟩
  | cons v rest ih =>
    intro i st
    have hgo : mddGo i st (v :: rest) = mddGo (i + 1) (mddStep i st v) rest := rfl
    rcases ih (i + 1) (mddStep i st v) with ⟨hval, hpct, htr⟩ | ⟨j, hj, htr, hval, hpct⟩
    · by_cases hp : st.peak < v
      · left
        obtain ⟨e1, e2, e3⟩ := mddStep_keep i st v (Or.inl hp)
        rw [hgo]
        exact ⟨hval.trans e1, hpct.trans e2, htr.trans e3⟩
      · by_cases hdd : st.maxDrawdown < st.peak - v
        · right
          obtain ⟨e1, e2, e3⟩ := mddStep_update i st v hp hdd
          refine ⟨0, by simp, ?_, ?_, ?_⟩
          · rw [hgo, htr, e3]; omega
          · rw [hgo, hval, e1, prefixMax, List.getD_cons_zero,
              max_eq_left (le_of_not_lt hp)]
          · rw [hgo, hval, hpct, e1, e2, prefixMax,
              max_eq_left (le_of_not_lt hp)]
        · left
          obtain ⟨e1, e2, e3⟩ := mddStep_keep i st v (Or.inr hdd)
          rw [hgo]
          exact ⟨hval.trans e1, hpct.trans e2, htr.trans e3⟩
    · right
      refine ⟨j + 1, by simpa using hj, ?_, ?_, ?_⟩
      · rw [hgo, htr]; omega
      · rw [hgo, hval, prefixMax, ← max_assoc, ← mddStep_peak i st v,
          List.getD_cons_succ]
      · rw [hgo, hpct, prefixMax, ← max_assoc, ← mddStep_peak i st v]

/-- C10 (confirmed): `calculateMaxDrawdown` selects the reported drawdown
by maximizing the absolute peak-minus-value difference — its `value`
dominates the pointwise running-peak drawdown at every index and is
attained at the reported trough, with the `percentage` measured at that
same trough. Consequently on `[100, 50, 1000, 900]` the reported
percentage is 10 although the pointwise percentage drawdown at index 1 is
50. -/
theorem maxDrawdown_selects_absolute_worst :
    (∀ (curve : List ℚ), curve ≠ [] →
      (∀ j, j < curve.length →
        prefixMax curve j - curve.getD j 0 ≤ (calculateMaxDrawdown curve).value) ∧
      ((calculateMaxDrawdown curve).troughIndex < curve.length ∧
       (calculateMaxDrawdown curve).value =
         prefixMax curve (calculateMaxDrawdown curve).troughIndex -
           curve.getD (calculateMaxDrawdown curve).troughIndex 0 ∧
       (calculateMaxDrawdown curve).percentage =
         (calculateMaxDrawdown curve).value /
           prefixMax curve (calculateMaxDrawdown curve).troughIndex * 100)) ∧
    ((calculateMaxDrawdown [100, 50, 1000, 900]).value = 100 ∧
     (calculateMaxDrawdown [100, 50, 1000, 900]).percentage = 10 ∧
     (prefixMax [100, 50, 1000, 900] 1 - [(100:ℚ), 50, 1000, 900].getD 1 0) /
       prefixMax [100, 50, 1000, 900] 1 * 100 = 50 ∧
     (10:ℚ) < 50) := by
  constructor
  · rintro (_ | ⟨x, xs⟩) hne
    · exact absurd rfl hne
    · have hval : (calculateMaxDrawdown (x :: xs)).value =
        (mddGo 0 ⟨0, 0, x, 0, 0, 0, 0, 0⟩ (x :: xs)).maxDrawdown := rfl
      have hpct : (calculateMaxDrawdown (x :: xs)).percentage =
        (mddGo 0 ⟨0, 0, x, 0, 0, 0, 0, 0⟩ (x :: xs)).maxDrawdownPct := rfl
      have htri : (calculateMaxDrawdown (x :: xs)).troughIndex =
        (mddGo 0 ⟨0, 0, x, 0, 0, 0, 0, 0⟩ (x :: xs)).troughIndex := rfl
      have hpk : (⟨0, 0, x, 0, 0, 0, 0, 0⟩ : MDDState).peak = x := rfl
      constructor
      · intro j hj
        have hlb := mdd_lower_bound (x :: xs) 0 ⟨0, 0, x, 0, 0, 0, 0, 0⟩
          (le_refl 0) j hj
        rw [hpk, max_eq_right (head_le_prefixMax x xs j)] at hlb
        rw [hval]
        exact hlb
      · rcases mdd_attained (x :: xs) 0 ⟨0, 0, x, 0, 0, 0, 0, 0⟩ with
          ⟨h1, h2, h3⟩ | ⟨j, hj, h3, h1, h2⟩
        · have h1' : (mddGo 0 ⟨0, 0, x, 0, 0, 0, 0, 0⟩ (x :: xs)).maxDrawdown = 0 := h1
          have h2' : (mddGo 0 ⟨0, 0, x, 0, 0, 0, 0, 0⟩ (x :: xs)).maxDrawdownPct = 0 := h2
          have h3' : (mddGo 0 ⟨0, 0, x, 0, 0, 0, 0, 0⟩ (x :: xs)).troughIndex = 0 := h3
          refine ⟨?_, ?_, ?_⟩
          · rw [htri, h3']; simp
          · rw [hval, htri, h1', h3', prefixMax, List.getD_cons_zero]
            ring
          · rw [hval, hpct, h1', h2']
            simp
        · rw [hpk, max_eq_right (head_le_prefixMax x xs j)] at h1 h2
          have h3' : (mddGo 0 ⟨0, 0, x, 0, 0, 0, 0, 0⟩ (x :: xs)).troughIndex = j := by
            rw [h3]; omega
          refine ⟨?_, ?_, ?_⟩
          · rw [htri, h3']; exact hj
          · rw [hval, htri, h3']; exact h1
          · rw [hval, hpct, htri, h3']; exact h2
  · refine ⟨?_, ?_, ?_, by norm_num⟩ <;>
      norm_num [calculateMaxDrawdown, mddGo, mddStep, prefixMax]

/-- Witness for the C9 amended theorem at concrete short and hourly
timestamp series. -/
theorem detectPeriodsPerYear_policy_witness :
    detectPeriodsPerYearFromTimestamps [0] = 0 ∧
    1 ≤ detectPeriodsPerYearFromTimestamps [0, 3600000] :=
  ⟨detectPeriodsPerYear_policy.1 [0] (by norm_num),
   detectPeriodsPerYear_policy.2.1 [0, 3600000] (by norm_num)⟩

/-- Witness for the C10 theorem at the concrete curve
`[100, 50, 1000, 900]`. -/
theorem maxDrawdown_selects_absolute_worst_witness :
    prefixMax [100, 50, 1000, 900] 1 - [(100:ℚ), 50, 1000, 900].getD 1 0 ≤
      (calculateMaxDrawdown [100, 50, 1000, 900]).value ∧
    (calculateMaxDrawdown [100, 50, 1000, 900]).troughIndex < 4 := by
  have h := maxDrawdown_selects_absolute_worst.1 [100, 50, 1000, 900] (by simp)
  exact ⟨h.1 1 (by norm_num), by simpa using h.2.1⟩

end Dydx
